import Mathlib

set_option autoImplicit false

/-!
Verification development for the `templateservice` repository.

The repository exposes Go `text/template` rendering over HTTP in two request
shapes: a plain REST body (`handleRender` in `cmd/template.go`, and
`renderTemplateREST` in `cmd/templateservice/rest_handlers.go`) and a
Schema.org JSON-LD `ReplaceAction` envelope (`handleSemanticAction` /
`handleSemanticReplace`).  This file gives a shallow embedding of the
request-normalisation, dispatch, parameter-resolution and render-invocation
logic of those handlers, together with a small executable model of the
external Go `text/template` engine restricted to the constructs the
repository's documentation exercises.

Conventions of the embedding:
* Go `interface{}` values decoded from JSON are modelled by `JValue`;
  a Go `map[string]interface{}` is modelled by an association list with
  pairwise-distinct keys (`PMap`), which is what `encoding/json` produces.
* The external template engine (`text/template`) and the file system are
  abstracted as explicit arguments (`Engine`, `FS`); the handlers are
  translated to be parametric in them.
* Go's in-place map mutation is made explicit: wherever a handler writes
  through an alias of a caller-supplied map, the embedding returns the final
  contents of that map alongside the handler result.
-/

/-- JSON-like run-time values, as produced by Go's `encoding/json` when
decoding into `interface{}`: `null`, booleans, numbers, strings, arrays
(`[]interface{}`) and objects (`map[string]interface{}`).  Objects are
represented as association lists whose keys are pairwise distinct. -/
inductive JValue where
  | null
  | bool (b : Bool)
  | num (n : Int)
  | str (s : String)
  | arr (items : List JValue)
  | obj (fields : List (String × JValue))

/-- Model of a Go `map[string]interface{}`: an association list with
pairwise-distinct keys. -/
abbrev PMap : Type := List (String × JValue)

/-- Go map read `m[key]` together with its presence bit: the first binding of
`key`, if any.  On the association lists produced by `encoding/json` keys are
distinct, so "first" is exact. -/
def lookupKV : PMap → String → Option JValue
  | [], _ => none
  | (k, v) :: rest, key => if k = key then some v else lookupKV rest key

/-- Go map write `m[key] = val`: replace the binding if the key is present,
otherwise add a new binding. -/
def insertKV : PMap → String → JValue → PMap
  | [], key, val => [(key, val)]
  | (k, v) :: rest, key, val =>
      if k = key then (k, val) :: rest else (k, v) :: insertKV rest key val

/-- Keys of a modelled Go map, in representation order. -/
def keysOf (m : PMap) : List String := m.map Prod.fst

/-- The external template engine, abstracted as in the service code: Go's
`text/template` exposes `Parse : string -> *Template | error` and
`Execute : *Template x data -> string | error`.  `T` is the type of compiled
templates.  The `data` argument is the decoded `parameters` map, which in Go
may be `nil` (hence `Option PMap`). -/
structure Engine (T : Type) where
  parse : String → Except String T
  exec : T → Option PMap → Except String String

/-- The file-reading primitive (`os.ReadFile`), abstracted: a path either
yields the file's contents or an error message. -/
def FS : Type := String → Except String String

/-- The two engine stages that can fail after a template source has been
resolved, each carrying the engine's own message. -/
inductive RenderErr where
  | parseFail (msg : String)
  | execFail (msg : String)
  deriving DecidableEq

/-- The parse-then-execute core shared by every handler in the repository
(`template.New(...).Parse(content)` followed by `tmpl.Execute(&output,
parameters)`), producing the rendered output string. -/
def renderCore {T : Type} (E : Engine T) (content : String) (params : Option PMap) :
    Except RenderErr String :=
  match E.parse content with
  | .error e => .error (.parseFail e)
  | .ok t =>
    match E.exec t params with
    | .error e => .error (.execFail e)
    | .ok out => .ok out

/-- `TemplateRequest` from `cmd/template.go`: inline template text,
an alternative template file path, and the parameter map (`nil` when the
JSON field is absent). -/
structure TemplateRequest where
  template : String
  templateId : String
  parameters : Option PMap

/-- `TemplateResponse` from `cmd/template.go`: rendered output, declared
encoding format, and the byte length of the output (`int64(len(result))`,
UTF-8 bytes). -/
structure TemplateResponse where
  output : String
  encodingFormat : String
  contentSize : Int
  deriving DecidableEq

/-- The error cases of `handleRender` after request binding, in source
order: missing both template fields, unreadable template file, or an engine
failure. -/
inductive RestErr where
  | missingField
  | fileReadFail (msg : String)
  | engine (e : RenderErr)
  deriving DecidableEq

/-- Lines 36-53 of `cmd/template.go` (`handleRender`): the template content
is the inline `Template` field when non-empty, else the contents of the file
named by `TemplateID` when that is non-empty, else a missing-field error. -/
def getTemplateContent (fs : FS) (req : TemplateRequest) : Except RestErr String :=
  if req.template ≠ "" then .ok req.template
  else if req.templateId ≠ "" then
    match fs req.templateId with
    | .ok data => .ok data
    | .error e => .error (.fileReadFail e)
  else .error .missingField

/-- Lines 56-76 of `cmd/template.go` (`handleRender`): parse and execute the
resolved content against `req.Parameters` and wrap the output into a
`TemplateResponse` with encoding format `"text/plain"` and byte length of
the result. -/
def restFinish {T : Type} (E : Engine T) (req : TemplateRequest) (content : String) :
    Except RestErr TemplateResponse :=
  match renderCore E content req.parameters with
  | .error e => .error (.engine e)
  | .ok result => .ok ⟨result, "text/plain", (result.utf8ByteSize : Int)⟩

/-- `handleRender` from `cmd/template.go` (the plain REST shape), after
request binding: resolve the template source, then parse, execute and
respond. -/
def handleRender {T : Type} (E : Engine T) (fs : FS) (req : TemplateRequest) :
    Except RestErr TemplateResponse :=
  match getTemplateContent fs req with
  | .error e => .error e
  | .ok content => restFinish E req content

/-- The exact error strings `handleRender` places in its `{"error": ...}`
response body for each failure case. -/
def restErrMsg : RestErr → String
  | .missingField => "either template or templateId is required"
  | .fileReadFail e => "failed to read template file: " ++ e
  | .engine (.parseFail e) => "failed to parse template: " ++ e
  | .engine (.execFail e) => "failed to execute template: " ++ e

/-- `SemanticMediaObject` from `cmd/template.go`: template source or output.
String fields default to `""` (Go zero values); `properties` is the optional
parameter map (`nil` when absent). -/
structure SemanticMediaObject where
  typ : String := ""
  contentUrl : String := ""
  text : String := ""
  encodingFormat : String := ""
  properties : Option PMap := none

/-- `SemanticTemplateAction` from `cmd/template.go`: the JSON-LD
`ReplaceAction` envelope (fields not used by the handler are omitted). -/
structure SemanticTemplateAction where
  typ : String := ""
  object : Option SemanticMediaObject := none
  targetCollection : Option JValue := none
  result : Option SemanticMediaObject := none

/-- Decode of one string-typed struct field by `encoding/json`: an absent or
`null` field leaves the zero value `""`, a string is taken as-is, and any
other JSON type is an unmarshalling error. -/
def getStrField (kvs : PMap) (key : String) : Except Unit String :=
  match lookupKV kvs key with
  | none => .ok ""
  | some .null => .ok ""
  | some (.str s) => .ok s
  | some _ => .error ()

/-- Decode of the `properties` field (`map[string]interface{}`): absent or
`null` leaves the map `nil`, an object decodes to its bindings, anything
else is an unmarshalling error. -/
def getPropsField (kvs : PMap) (key : String) : Except Unit (Option PMap) :=
  match lookupKV kvs key with
  | none => .ok none
  | some .null => .ok none
  | some (.obj m) => .ok (some m)
  | some _ => .error ()

/-- Decode of a `*SemanticMediaObject` field: absent or `null` leaves the
pointer `nil`; an object decodes field-wise; anything else fails. -/
def decodeObjectField : Option JValue → Except Unit (Option SemanticMediaObject)
  | none => .ok none
  | some .null => .ok none
  | some (.obj kvs) => do
      let typ ← getStrField kvs "@type"
      let contentUrl ← getStrField kvs "contentUrl"
      let text ← getStrField kvs "text"
      let encodingFormat ← getStrField kvs "encodingFormat"
      let properties ← getPropsField kvs "properties"
      .ok (some ⟨typ, contentUrl, text, encodingFormat, properties⟩)
  | some _ => .error ()

/-- Decode of the `targetCollection` field (`interface{}`): absent or `null`
leaves the interface `nil`; any other value is kept as-is. -/
def decodeTargetCollection : Option JValue → Option JValue
  | none => none
  | some .null => none
  | some v => some v

/-- The `json.Marshal` / `json.Unmarshal` round-trip at the top of
`handleSemanticReplace` (`cmd/template.go` lines 163-167), turning the raw
envelope into a `SemanticTemplateAction`. -/
def decodeAction (raw : PMap) : Except Unit SemanticTemplateAction := do
  let typ ← getStrField raw "@type"
  let object ← decodeObjectField (lookupKV raw "object")
  .ok { typ := typ, object := object,
        targetCollection := decodeTargetCollection (lookupKV raw "targetCollection"),
        result := none }

/-- The error cases of the semantic handlers in `cmd/template.go`, in source
order across `handleSemanticAction` and `handleSemanticReplace`. -/
inductive SemErr where
  | typeRequired
  | unsupportedType (t : String)
  | invalidStructure
  | objectRequired
  | textUrlRequired
  | fileReadFail (msg : String)
  | engine (e : RenderErr)
  deriving DecidableEq

/-- The exact error strings the semantic handlers place in their
`{"error": ...}` response bodies. -/
def semErrMsg : SemErr → String
  | .typeRequired => "@type is required"
  | .unsupportedType t => "unsupported action type: " ++ t ++ " (expected ReplaceAction)"
  | .invalidStructure => "invalid action structure"
  | .objectRequired => "object is required"
  | .textUrlRequired => "object.text or object.contentUrl is required"
  | .fileReadFail e => "failed to read template: " ++ e
  | .engine (.parseFail e) => "failed to parse template: " ++ e
  | .engine (.execFail e) => "failed to execute template: " ++ e

/-- One iteration of the `PropertyValue`-array loop (`cmd/template.go` lines
210-218): an array item contributes a binding exactly when it is an object
whose `name` member is a string and whose `value` member is present (a JSON
`null` value is present, and is written as `null`). -/
def pairEntry : JValue → Option (String × JValue)
  | .obj propVal =>
    match lookupKV propVal "name" with
    | some (.str name) =>
      match lookupKV propVal "value" with
      | some value => some (name, value)
      | none => none
    | _ => none
  | _ => none

/-- One write of the `PropertyValue`-array loop: apply the item's binding
to the accumulated map, or skip the item. -/
def pairStep (acc : PMap) (item : JValue) : PMap :=
  match pairEntry item with
  | some nv => insertKV acc nv.1 nv.2
  | none => acc

/-- The `PropertyValue`-array branch of parameter resolution
(`cmd/template.go` lines 207-219): iterate the items in order, writing
`name -> value` into a fresh map and skipping items without a usable
name/value pair. -/
def resolvePairs (items : List JValue) : PMap :=
  items.foldl pairStep []

/-- Parameter resolution from `targetCollection` (`cmd/template.go` lines
196-220): an object is used directly (unwrapping a `properties` member when
that member is itself an object); an array is folded as `PropertyValue`
pairs; any other shape (or absence) leaves the parameters `nil`. -/
def resolveTargetCollection : Option JValue → Option PMap
  | some (.obj tc) =>
    match lookupKV tc "properties" with
    | some (.obj props) => some props
    | _ => some tc
  | some (.arr items) => some (resolvePairs items)
  | _ => none

/-- The merge loop `for k, v := range props { parameters[k] = v }`
(`cmd/template.go` lines 227-231).  Go's map iteration order is
unspecified, but `props` has pairwise-distinct keys, so the resulting map
does not depend on it; the embedding folds in representation order. -/
def mergeList (p props : PMap) : PMap :=
  props.foldl (fun acc kv => insertKV acc kv.1 kv.2) p

/-- The secondary-source merge (`cmd/template.go` lines 222-232): when
`action.Object.Properties` is present it either becomes the parameters (if
none were resolved yet) or is merged into them, overriding on collision. -/
def mergeSecondary (params : Option PMap) (objProps : Option PMap) : Option PMap :=
  match objProps with
  | none => params
  | some props =>
    match params with
    | none => some props
    | some p => some (mergeList p props)

/-- The secondary parameter source: `action.Object.Properties` when
`action.Object != nil && action.Object.Properties != nil`. -/
def objPropsOf (a : SemanticTemplateAction) : Option PMap :=
  match a.object with
  | some ob => ob.properties
  | none => none

/-- The parameter map `handleSemanticReplace` passes to `tmpl.Execute`:
primary source `targetCollection`, secondary source `object.properties`
merged with precedence. -/
def resolveParams (a : SemanticTemplateAction) : Option PMap :=
  mergeSecondary (resolveTargetCollection a.targetCollection) (objPropsOf a)

/-- Final contents of the caller-supplied `targetCollection` value after the
resolution and merge of `handleSemanticReplace` have run, tracking Go's
aliasing: `parameters = tc` (and `parameters = props` for a nested
`properties` object) alias the caller's map, so the merge loop's writes
(`parameters[k] = v`) land in that map; the `PropertyValue`-array branch
builds a fresh map, so the array is untouched. -/
def resolveParamsFinalTC (tc : Option JValue) (objProps : Option PMap) : Option JValue :=
  match tc with
  | some (.obj m) =>
    match lookupKV m "properties" with
    | some (.obj props) =>
      match objProps with
      | some q => some (.obj (insertKV m "properties" (.obj (mergeList props q))))
      | none => some (.obj m)
    | _ =>
      match objProps with
      | some q => some (.obj (mergeList m q))
      | none => some (.obj m)
  | other => other

/-- Template-source resolution of `handleSemanticReplace`
(`cmd/template.go` lines 169-193): require `object`, prefer its inline
`text`, else read the file named by `contentUrl`, else fail. -/
def semanticContent (fs : FS) (a : SemanticTemplateAction) : Except SemErr String :=
  match a.object with
  | none => .error .objectRequired
  | some ob =>
    if ob.text ≠ "" then .ok ob.text
    else if ob.contentUrl ≠ "" then
      match fs ob.contentUrl with
      | .ok data => .ok data
      | .error e => .error (.fileReadFail e)
    else .error .textUrlRequired

/-- Encoding format of the semantic response (`cmd/template.go` lines
251-255): the object's declared format when non-empty, else `"text/plain"`. -/
def semanticEncodingFormat (a : SemanticTemplateAction) : String :=
  match a.object with
  | some ob => if ob.encodingFormat ≠ "" then ob.encodingFormat else "text/plain"
  | none => "text/plain"

/-- Render-and-respond tail of `handleSemanticReplace` (`cmd/template.go`
lines 234-264): parse and execute the resolved content against the resolved
parameters, then return the action with `Result` set; the returned action
carries the caller's `targetCollection` as mutated by the merge. -/
def semanticFinish {T : Type} (E : Engine T) (a : SemanticTemplateAction) (content : String) :
    Except SemErr SemanticTemplateAction :=
  match renderCore E content (resolveParams a) with
  | .error e => .error (.engine e)
  | .ok result =>
    .ok { a with
          targetCollection := resolveParamsFinalTC a.targetCollection (objPropsOf a),
          result := some { typ := "MediaObject", text := result,
                           encodingFormat := semanticEncodingFormat a } }

/-- `handleSemanticReplace` from `cmd/template.go` on a decoded action:
resolve the template source, then render and respond. -/
def handleSemanticReplaceA {T : Type} (E : Engine T) (fs : FS) (a : SemanticTemplateAction) :
    Except SemErr SemanticTemplateAction :=
  match semanticContent fs a with
  | .error e => .error e
  | .ok content => semanticFinish E a content

/-- `handleSemanticReplace` from `cmd/template.go` on the raw envelope: the
marshal/unmarshal round-trip, then the decoded handling. -/
def handleSemanticReplaceRaw {T : Type} (E : Engine T) (fs : FS) (raw : PMap) :
    Except SemErr SemanticTemplateAction :=
  match decodeAction raw with
  | .error _ => .error .invalidStructure
  | .ok action => handleSemanticReplaceA E fs action

/-- `handleSemanticAction` from `cmd/template.go` (lines 140-160): require a
string `@type`, dispatch `ReplaceAction` to `handleSemanticReplace`, and
reject any other value naming it in the error. -/
def handleSemanticActionA {T : Type} (E : Engine T) (fs : FS) (rawAction : PMap) :
    Except SemErr SemanticTemplateAction :=
  match lookupKV rawAction "@type" with
  | some (.str t) =>
    if t = "ReplaceAction" then handleSemanticReplaceRaw E fs rawAction
    else .error (.unsupportedType t)
  | _ => .error .typeRequired

/-! ### Model of the external Go `text/template` engine

The engine itself is an external collaborator (Go's standard `text/template`
package, which the README pins: "Full support for Go's text/template
syntax").  The model below covers exactly the fragment the repository's
documentation exercises and the claims evaluate: literal text, field actions
`\x7b\x7b.Ident\x7d\x7d`, bare-identifier actions (which `text/template`
resolves as function calls at parse time and rejects when the function is
not defined - this service registers no functions), and unbalanced
delimiters.  Constructs outside this fragment are mapped to an
`unmodeled template construct` error and no theorem evaluates the model on
them.  Error strings follow `text/template`'s `template: NAME:LINE: MSG`
format; the model is restricted to single-line templates, so the line is
always 1. -/

/-- A lexed piece of template source: literal text or the inside of one
`\x7b\x7b ... \x7d\x7d` action. -/
inductive TChunk where
  | lit (cs : List Char)
  | act (cs : List Char)

mutual

/-- Lexing of template source outside an action: accumulate literal text
until an opening `\x7b\x7b`. -/
def lexText (tacc : List Char) : List Char → Except String (List TChunk)
  | [] => .ok [TChunk.lit tacc.reverse]
  | '{' :: '{' :: rest => lexAct [] tacc rest
  | c :: rest => lexText (c :: tacc) rest

/-- Lexing of template source inside an action: accumulate until the
closing `\x7d\x7d`; running out of input is `text/template`'s
"unclosed action" parse error. -/
def lexAct (aacc : List Char) (tacc : List Char) : List Char → Except String (List TChunk)
  | [] => .error "unclosed action"
  | '}' :: '}' :: rest =>
    match lexText [] rest with
    | .error e => .error e
    | .ok tail => .ok (TChunk.lit tacc.reverse :: TChunk.act aacc.reverse :: tail)
  | c :: rest => lexAct (c :: aacc) tacc rest

end

/-- A parsed template node in the modelled fragment. -/
inductive TNode where
  | text (s : String)
  | field (name : String)
  deriving DecidableEq

/-- Bare words that `text/template` does not reject as undefined functions:
grammar keywords, the boolean/nil constants, and the predeclared global
functions.  Actions built from these are outside the modelled fragment. -/
def goReservedWords : List String :=
  ["if", "else", "end", "range", "with", "template", "block", "define",
   "break", "continue", "true", "false", "nil",
   "and", "call", "html", "index", "slice", "js", "len", "not", "or",
   "print", "printf", "println", "urlquery", "eq", "ne", "lt", "le", "gt", "ge"]

/-- Characters of a Go template identifier or field name. -/
def isIdentChar (c : Char) : Bool := c.isAlphanum || c = '_'

/-- Horizontal and vertical whitespace, as `text/template`'s lexer skips it
around the contents of an action. -/
def isTmplSpace (c : Char) : Bool := c = ' ' || c = '\t' || c = '\n' || c = '\r'

/-- Whitespace trimming of an action's contents. -/
def trimChars (cs : List Char) : List Char :=
  ((cs.dropWhile isTmplSpace).reverse.dropWhile isTmplSpace).reverse

/-- Grammar of one action in the modelled fragment: `.Ident` is a field
node; a bare identifier is a function call, rejected at parse time with
`function "x" not defined` unless it is a reserved word (the service
registers no template functions). -/
def parseActionNode (content : List Char) : Except String TNode :=
  match trimChars content with
  | '.' :: f =>
    if f ≠ [] && f.all isIdentChar then .ok (.field (String.mk f))
    else .error "unmodeled template construct"
  | s =>
    if s ≠ [] && s.all isIdentChar then
      if s.all Char.isDigit then .error "unmodeled template construct"
      else if goReservedWords.contains (String.mk s) then
        .error "unmodeled template construct"
      else .error ("function \"" ++ String.mk s ++ "\" not defined")
    else .error "unmodeled template construct"

/-- Model of `template.New(tname).Parse`: lex into chunks, then parse each
action, formatting errors as `template: NAME:1: MSG`. -/
def goParse (tname : String) (src : String) : Except String (List TNode) :=
  match lexText [] src.data with
  | .error e => .error ("template: " ++ tname ++ ":1: " ++ e)
  | .ok chunks =>
    chunks.mapM (fun ch =>
      match ch with
      | .lit cs => .ok (TNode.text (String.mk cs))
      | .act cs =>
        match parseActionNode cs with
        | .ok n => .ok n
        | .error e => .error ("template: " ++ tname ++ ":1: " ++ e))

/-- Printing of a substituted value, as `text/template` writes it for the
atoms of the modelled fragment (a missing value prints `<no value>`). -/
def printJValue : JValue → String
  | .str s => s
  | .num n => toString n
  | .bool true => "true"
  | .bool false => "false"
  | .null => "<no value>"
  | .arr _ => "<unmodeled value>"
  | .obj _ => "<unmodeled value>"

/-- Execution of one node against the data map: a field looks its name up
in the map (a key missing from a map prints `<no value>`; executing a field
against nil data is an execution error). -/
def goExecNode (tname : String) (params : Option PMap) : TNode → Except String String
  | .text s => .ok s
  | .field f =>
    match params with
    | none => .error ("template: " ++ tname ++ ":1: executing \"" ++ tname ++
        "\" at <." ++ f ++ ">: nil data; no entry for key \"" ++ f ++ "\"")
    | some p =>
      match lookupKV p f with
      | some v => .ok (printJValue v)
      | none => .ok "<no value>"

/-- Model of `Template.Execute`: concatenate the nodes' outputs, stopping
at the first execution error. -/
def goExec (tname : String) (nodes : List TNode) (params : Option PMap) :
    Except String String :=
  nodes.foldlM (fun acc n => (goExecNode tname params n).map (fun s => acc ++ s)) ""

/-- The modelled Go `text/template` engine for a template named `tname`
(the service uses the names `"template"` and `"semantic-template"`). -/
def goEngine (tname : String) : Engine (List TNode) :=
  ⟨goParse tname, goExec tname⟩

/-! ### The later revision's semantic handler (`cmd/templateservice/rest_handlers.go`)

This revision parses the envelope through the external `eve.evalgo.org/semantic`
library into a `semantic.SemanticAction` whose `Object` and `Properties`
fields drive the handler.  `Properties` is a Go map field, so an envelope
carrying no parameter payload decodes to a `nil` map (`none`). -/

/-- The `Object` of a `semantic.SemanticAction` as used by the later
`handleSemanticReplace`: inline text, content URL, encoding format. -/
structure MediaObjectB where
  text : String := ""
  contentUrl : String := ""
  encodingFormat : String := ""

/-- The fields of a `semantic.SemanticAction` the later
`handleSemanticReplace` reads and writes. -/
structure SemanticActionB where
  object : Option MediaObjectB
  properties : Option PMap

/-- Result of the later `handleSemanticReplace`: a successful response
action, an error response (the handler-side message passed to
`semantic.ReturnActionError`), or a Go run-time panic. -/
inductive BResult where
  | ok (a : SemanticActionB)
  | err (msg : String)
  | panic (msg : String)

/-- Parameter resolution of the later revision (`rest_handlers.go` lines
141-154): start from a fresh empty map; when `Properties` is non-nil, use
its `templateParameters` member if that is a map, else its `parameters`
member if that is a map, else all of `Properties`. -/
def resolveParamsB : Option PMap → PMap
  | none => []
  | some props =>
    match lookupKV props "templateParameters" with
    | some (.obj tp) => tp
    | _ =>
      match lookupKV props "parameters" with
      | some (.obj p) => p
      | _ => props

/-- The later `handleSemanticReplace` (`rest_handlers.go` lines 118-185).
The write of the result, `action.Properties["result"] = ...`, is a Go map
assignment through the struct field: when the incoming action carried no
properties map the field is `nil` and the assignment panics
(`assignment to entry in nil map`). -/
def handleSemanticReplaceB {T : Type} (E : Engine T) (fs : FS) (a : SemanticActionB) :
    BResult :=
  match a.object with
  | none => .err "object is required"
  | some ob =>
    let contentE : Except String String :=
      if ob.text ≠ "" then .ok ob.text
      else if ob.contentUrl ≠ "" then
        match fs ob.contentUrl with
        | .ok data => .ok data
        | .error _ => .error "Failed to read template file"
      else .error "object.text or object.contentUrl is required"
    match contentE with
    | .error msg => .err msg
    | .ok content =>
      match renderCore E content (some (resolveParamsB a.properties)) with
      | .error (.parseFail _) => .err "Failed to parse template"
      | .error (.execFail _) => .err "Failed to execute template"
      | .ok result =>
        let fmt := if ob.encodingFormat ≠ "" then ob.encodingFormat else "text/plain"
        let resultObj : JValue := .obj
          [("@type", .str "MediaObject"), ("text", .str result),
           ("encodingFormat", .str fmt), ("contentSize", .num (result.utf8ByteSize : Int))]
        match a.properties with
        | none => .panic "assignment to entry in nil map"
        | some props => .ok { a with properties := some (insertKV props "result" resultObj) }

/-! ### Comparing the two request shapes (revision of `cmd/template.go`)

For the refinement claim, the REST body and the JSON-LD envelope are
compared through a common outcome type that records the rendered output and
declared format on success and the failure stage (with the underlying
engine or file-system message) on failure.  The response texts of the two
shapes differ superficially (for example `"failed to read template file: "`
against `"failed to read template: "`); the outcome keeps the stage and the
underlying message, which is what both shapes share. -/

/-- Common outcome of a render request: success with output text and
declared format, or the failing stage with the collaborator's message. -/
inductive Outcome where
  | missing
  | fileErr (msg : String)
  | engineErr (e : RenderErr)
  | badEnvelope
  | rendered (out fmt : String)
  deriving DecidableEq

/-- Outcome of the plain REST shape (`handleRender`). -/
def restOutcome : Except RestErr TemplateResponse → Outcome
  | .error .missingField => .missing
  | .error (.fileReadFail e) => .fileErr e
  | .error (.engine e) => .engineErr e
  | .ok resp => .rendered resp.output resp.encodingFormat

/-- Outcome of the semantic shape (`handleSemanticAction`).  Envelope-level
failures (missing or unsupported `@type`, malformed structure) have no REST
counterpart and map to `badEnvelope`; a success without a result object
cannot occur. -/
def semOutcome : Except SemErr SemanticTemplateAction → Outcome
  | .error .typeRequired => .badEnvelope
  | .error (.unsupportedType _) => .badEnvelope
  | .error .invalidStructure => .badEnvelope
  | .error .objectRequired => .missing
  | .error .textUrlRequired => .missing
  | .error (.fileReadFail e) => .fileErr e
  | .error (.engine e) => .engineErr e
  | .ok a =>
    match a.result with
    | some r => .rendered r.text r.encodingFormat
    | none => .badEnvelope

/-- The JSON-LD `ReplaceAction` envelope equivalent to a plain REST body,
following the spec's "two equivalent request shapes" sentence and the
construction of `renderTemplateREST` (`rest_handlers.go` lines 40-61):
an `object` carrying `text` / `contentUrl` for whichever template fields
are populated, and the parameter map as the `properties` of the
`targetCollection` when parameters were supplied. -/
def restToRawAction (req : TemplateRequest) : PMap :=
  ("@context", JValue.str "https://schema.org") ::
  ("@type", JValue.str "ReplaceAction") ::
  ("object", JValue.obj (("@type", JValue.str "MediaObject") ::
      ((if req.template ≠ "" then [("text", JValue.str req.template)] else []) ++
       (if req.templateId ≠ "" then [("contentUrl", JValue.str req.templateId)] else [])))) ::
  (match req.parameters with
   | some p => [("targetCollection", JValue.obj [("properties", JValue.obj p)])]
   | none => [])

/-- The `PropertyValue`-pair presentation of a mapping: each binding
`k -> v` becomes the object `\x7b"name": k, "value": v\x7d`, in the
mapping's order. -/
def pairsOf (m : PMap) : List JValue :=
  m.map (fun kv => JValue.obj [("name", JValue.str kv.1), ("value", kv.2)])

/-- Substring test, used to state that an error message names a value. -/
def strContains (hay needle : String) : Bool :=
  hay.data.tails.any (fun t => needle.data.isPrefixOf t)

/-- The decoded form of the envelope `restToRawAction` builds: the object
carries the request's template fields (absent JSON fields decode to the Go
zero value `""`), and the `targetCollection` carries the parameter map
under `properties` when parameters were supplied. -/
def restActionOf (t tid : String) (params : Option PMap) : SemanticTemplateAction :=
  { typ := "ReplaceAction",
    object := some { typ := "MediaObject", contentUrl := tid, text := t,
                     encodingFormat := "", properties := none },
    targetCollection := params.map (fun p => JValue.obj [("properties", JValue.obj p)]),
    result := none }

deriving instance DecidableEq for Except

/-! ### Helper lemmas about the map model -/

theorem lookupKV_insertKV (m : PMap) (key : String) (val : JValue) (q : String) :
    lookupKV (insertKV m key val) q = if key = q then some val else lookupKV m q := by
  induction m with
  | nil => simp [insertKV, lookupKV]
  | cons kv rest ih =>
    obtain ⟨k, v⟩ := kv
    simp only [insertKV, lookupKV]
    split_ifs <;> simp_all [lookupKV]

theorem lookupKV_eq_none (m : PMap) (k : String) (h : k ∉ keysOf m) :
    lookupKV m k = none := by
  induction m with
  | nil => rfl
  | cons kv rest ih =>
    obtain ⟨k1, v1⟩ := kv
    simp only [keysOf, List.map_cons, List.mem_cons, not_or] at h
    have hk : ¬ k1 = k := fun hh => h.1 hh.symm
    simp only [lookupKV, if_neg hk]
    exact ih (by simpa [keysOf] using h.2)

theorem insertKV_notMem (m : PMap) (key : String) (val : JValue)
    (h : key ∉ keysOf m) : insertKV m key val = m ++ [(key, val)] := by
  induction m with
  | nil => rfl
  | cons kv rest ih =>
    obtain ⟨k, v⟩ := kv
    simp only [keysOf, List.map_cons, List.mem_cons, not_or] at h
    have hk : ¬ k = key := fun hkk => h.1 hkk.symm
    simp only [insertKV, if_neg hk, List.cons_append, List.cons.injEq, true_and]
    exact ih (by simpa [keysOf] using h.2)

theorem pairStep_pair (acc : PMap) (k : String) (v : JValue) :
    pairStep acc (JValue.obj [("name", JValue.str k), ("value", v)]) =
      insertKV acc k v := rfl

theorem foldl_pairStep_pairsOf (m : PMap) : ∀ acc : PMap,
    (keysOf (acc ++ m)).Nodup → List.foldl pairStep acc (pairsOf m) = acc ++ m := by
  induction m with
  | nil => intro acc _; simp [pairsOf]
  | cons kv rest ih =>
    intro acc h
    obtain ⟨k, v⟩ := kv
    have h' : (keysOf acc ++ k :: keysOf rest).Nodup := by
      simpa [keysOf] using h
    have hk : k ∉ keysOf acc := by
      intro hmem
      rcases List.nodup_append.mp h' with ⟨-, -, hdisj⟩
      exact hdisj hmem (List.mem_cons_self k _)
    rw [show pairsOf ((k, v) :: rest) =
          JValue.obj [("name", JValue.str k), ("value", v)] :: pairsOf rest from rfl,
        List.foldl_cons, pairStep_pair, insertKV_notMem acc k v hk]
    have hre : (acc ++ [(k, v)]) ++ rest = acc ++ (k, v) :: rest := by
      simp
    have := ih (acc ++ [(k, v)]) (by rw [hre]; exact h)
    rw [this, hre]

/-- C2: for every parameter source given as an ordered list of
`\x7bname, value\x7d` pairs, resolution yields the same flat mapping as
resolving the same data supplied directly as a mapping (provided the
mapping does not itself carry a `properties` object, which the direct
branch would unwrap); and during pair-list resolution any pair missing its
name or its value is skipped while the remaining pairs are still written
in order. -/
theorem c2_pairlist_mapping_equiv :
    (∀ m : PMap, (keysOf m).Nodup →
      (∀ props, lookupKV m "properties" ≠ some (JValue.obj props)) →
      resolveTargetCollection (some (JValue.arr (pairsOf m))) =
        resolveTargetCollection (some (JValue.obj m))) ∧
    (∀ (itemsBefore itemsAfter : List JValue) (bad : JValue), pairEntry bad = none →
      resolveTargetCollection (some (JValue.arr (itemsBefore ++ bad :: itemsAfter))) =
        resolveTargetCollection (some (JValue.arr (itemsBefore ++ itemsAfter)))) := by
  constructor
  · intro m hnd hnp
    have hdirect : resolveTargetCollection (some (JValue.obj m)) = some m := by
      simp only [resolveTargetCollection]
    have harr : resolvePairs (pairsOf m) = m := by
      simpa [resolvePairs] using foldl_pairStep_pairsOf m [] (by simpa [keysOf] using hnd)
    rw [hdirect]
    simp only [resolveTargetCollection, harr]
  · intro itemsBefore itemsAfter bad hbad
    simp only [resolveTargetCollection, resolvePairs, Option.some.injEq]
    rw [List.foldl_append, List.foldl_cons, List.foldl_append]
    simp [pairStep, hbad]

/-- Witness for C2 at a concrete two-entry mapping. -/
theorem c2_pairlist_mapping_equiv_witness :
    resolveTargetCollection (some (JValue.arr (pairsOf [("a", JValue.str "1"), ("b", JValue.num 2)]))) =
      resolveTargetCollection (some (JValue.obj [("a", JValue.str "1"), ("b", JValue.num 2)])) :=
  c2_pairlist_mapping_equiv.1 [("a", JValue.str "1"), ("b", JValue.num 2)]
    (by decide) (by simp [lookupKV])

theorem lookupKV_mergeList (q : PMap) : ∀ (p : PMap) (k : String), (keysOf q).Nodup →
    lookupKV (mergeList p q) k =
      match lookupKV q k with
      | some v => some v
      | none => lookupKV p k := by
  induction q with
  | nil => intro p k _; simp [mergeList, lookupKV]
  | cons kv rest ih =>
    intro p k hnd
    obtain ⟨a, b⟩ := kv
    have hnd' : (keysOf rest).Nodup := by
      simpa [keysOf] using hnd.of_cons
    have ha : a ∉ keysOf rest := by
      have := hnd
      simp only [keysOf, List.map_cons, List.nodup_cons] at this
      exact this.1
    have hstep : mergeList p ((a, b) :: rest) = mergeList (insertKV p a b) rest := by
      simp [mergeList]
    rw [hstep, ih (insertKV p a b) k hnd']
    by_cases hak : a = k
    · subst hak
      rw [lookupKV_eq_none rest a ha]
      simp [lookupKV, lookupKV_insertKV]
    · cases hrk : lookupKV rest k with
      | some v => simp [hrk, lookupKV, hak]
      | none => simp [hrk, lookupKV, hak, lookupKV_insertKV]

/-- C3: when both the primary parameter source (the `targetCollection`) and
the secondary source (the object-level `properties`) are present, the
parameters the handler executes with are their merge, and for every key the
merge holds the secondary source's value when that source defines it and
the primary source's value otherwise. -/
theorem c3_secondary_source_precedence (a : SemanticTemplateAction) (p q : PMap)
    (hp : resolveTargetCollection a.targetCollection = some p)
    (hq : objPropsOf a = some q) (hnd : (keysOf q).Nodup) :
    resolveParams a = some (mergeList p q) ∧
    ∀ k, lookupKV (mergeList p q) k =
      match lookupKV q k with
      | some v => some v
      | none => lookupKV p k := by
  refine ⟨?_, fun k => lookupKV_mergeList q p k hnd⟩
  simp [resolveParams, hp, hq, mergeSecondary]

/-- Witness for C3: with primary source `\x7bk: one, a: ay\x7d` and
secondary source `\x7bk: two, b: bee\x7d`, the key `k` resolves to the
secondary value, `a` to the primary one, `b` to the secondary one. -/
theorem c3_secondary_source_precedence_witness :
    lookupKV (mergeList [("k", JValue.str "one"), ("a", JValue.str "ay")]
        [("k", JValue.str "two"), ("b", JValue.str "bee")]) "k" = some (JValue.str "two") ∧
    lookupKV (mergeList [("k", JValue.str "one"), ("a", JValue.str "ay")]
        [("k", JValue.str "two"), ("b", JValue.str "bee")]) "a" = some (JValue.str "ay") ∧
    lookupKV (mergeList [("k", JValue.str "one"), ("a", JValue.str "ay")]
        [("k", JValue.str "two"), ("b", JValue.str "bee")]) "b" = some (JValue.str "bee") :=
  ⟨(c3_secondary_source_precedence
      ⟨"ReplaceAction",
       some { typ := "MediaObject", text := "t",
              properties := some [("k", JValue.str "two"), ("b", JValue.str "bee")] },
       some (JValue.obj [("k", JValue.str "one"), ("a", JValue.str "ay")]), none⟩
      _ _ rfl rfl (by decide)).2 "k",
   (c3_secondary_source_precedence
      ⟨"ReplaceAction",
       some { typ := "MediaObject", text := "t",
              properties := some [("k", JValue.str "two"), ("b", JValue.str "bee")] },
       some (JValue.obj [("k", JValue.str "one"), ("a", JValue.str "ay")]), none⟩
      _ _ rfl rfl (by decide)).2 "a",
   (c3_secondary_source_precedence
      ⟨"ReplaceAction",
       some { typ := "MediaObject", text := "t",
              properties := some [("k", JValue.str "two"), ("b", JValue.str "bee")] },
       some (JValue.obj [("k", JValue.str "one"), ("a", JValue.str "ay")]), none⟩
      _ _ rfl rfl (by decide)).2 "b"⟩

/-- C4 counterexample: running the semantic handler on an action whose
`targetCollection` is the mapping `\x7ba: 1\x7d` and whose object carries
the secondary source `\x7ba: 2\x7d` succeeds, and the action it returns
(the very struct the handler serialises) carries the caller's
`targetCollection` map with its entry overwritten in place by the merge:
the map is now `\x7ba: 2\x7d`, not the `\x7ba: 1\x7d` the caller supplied. -/
theorem c4_claim_counterexample :
    handleSemanticReplaceA (goEngine "semantic-template") (fun _ => .error "no file system")
      ⟨"ReplaceAction",
       some { typ := "MediaObject", text := "hi", properties := some [("a", JValue.str "2")] },
       some (JValue.obj [("a", JValue.str "1")]), none⟩ =
      .ok ⟨"ReplaceAction",
           some { typ := "MediaObject", text := "hi",
                  properties := some [("a", JValue.str "2")] },
           some (JValue.obj [("a", JValue.str "2")]),
           some { typ := "MediaObject", text := "hi", encodingFormat := "text/plain" }⟩ ∧
    JValue.obj [("a", JValue.str "2")] ≠ JValue.obj [("a", JValue.str "1")] := by
  refine ⟨rfl, ?_⟩
  intro h
  simp at h

/-- C4 amended: parameter resolution leaves the caller's pair-list source
untouched (that branch builds a fresh map), and with no secondary source
nothing is written; but when the primary source is a mapping and the
secondary source is present, the merge writes the secondary entries into
the caller-supplied mapping in place - into the mapping itself, or into its
nested `properties` object when that is what was unwrapped. -/
theorem c4_amended_mutation_characterization :
    (∀ (items : List JValue) (objProps : Option PMap),
      resolveParamsFinalTC (some (JValue.arr items)) objProps = some (JValue.arr items)) ∧
    (∀ tc : Option JValue, resolveParamsFinalTC tc none = tc) ∧
    (∀ m q : PMap, (∀ props, lookupKV m "properties" ≠ some (JValue.obj props)) →
      resolveParamsFinalTC (some (JValue.obj m)) (some q) =
        some (JValue.obj (mergeList m q))) ∧
    (∀ (m props q : PMap), lookupKV m "properties" = some (JValue.obj props) →
      resolveParamsFinalTC (some (JValue.obj m)) (some q) =
        some (JValue.obj (insertKV m "properties" (JValue.obj (mergeList props q))))) := by
  refine ⟨fun items objProps => rfl, ?_, ?_, ?_⟩
  · intro tc
    rcases tc with _ | v
    · rfl
    · rcases v with _ | b | n | s | items | m
      · rfl
      · rfl
      · rfl
      · rfl
      · rfl
      · simp only [resolveParamsFinalTC]
        split <;> rfl
  · intro m q hnp
    simp only [resolveParamsFinalTC]
  · intro m props q hp
    simp only [resolveParamsFinalTC, hp]

/-- Witness for C4 amended: the in-place merge case at a concrete mapping. -/
theorem c4_amended_mutation_characterization_witness :
    resolveParamsFinalTC (some (JValue.obj [("a", JValue.str "1")]))
        (some [("a", JValue.str "2")]) =
      some (JValue.obj (mergeList [("a", JValue.str "1")] [("a", JValue.str "2")])) :=
  c4_amended_mutation_characterization.2.2.1 [("a", JValue.str "1")] [("a", JValue.str "2")]
    (by simp [lookupKV])

/-- C5 counterexample: on the spec's own inputs - template text
`"Hello \x7b\x7bName\x7d\x7d!"` with parameter `Name = "World"` - rendering
does not succeed: Go's `text/template` resolves the bare identifier `Name`
as a function call at parse time and rejects it as not defined, so
`handleRender` answers with a parse error, not with the response
`("Hello World!", "text/plain", 12)` the claim asserts. -/
theorem c5_claim_counterexample :
    handleRender (goEngine "template") (fun _ => .error "no file system")
      ⟨"Hello {{Name}}!", "", some [("Name", JValue.str "World")]⟩ =
      .error (.engine (.parseFail "template: template:1: function \"Name\" not defined")) ∧
    handleRender (goEngine "template") (fun _ => .error "no file system")
      ⟨"Hello {{Name}}!", "", some [("Name", JValue.str "World")]⟩ ≠
      .ok ⟨"Hello World!", "text/plain", 12⟩ :=
  ⟨rfl, by decide⟩

/-- C5 amended: with the field-reference spelling the engine actually
accepts, `"Hello \x7b\x7b.Name\x7d\x7d!"`, and the parameter
`Name = "World"`, rendering succeeds and the response carries output
exactly `"Hello World!"`, content type `"text/plain"` and byte length 12. -/
theorem c5_amended_hello_world :
    handleRender (goEngine "template") (fun _ => .error "no file system")
      ⟨"Hello {{.Name}}!", "", some [("Name", JValue.str "World")]⟩ =
      .ok ⟨"Hello World!", "text/plain", 12⟩ := rfl

/-- C6: when both the inline template text and the file reference are
empty, the plain REST handler answers the missing-required-field error
(`"either template or templateId is required"`), and the semantic handler
with an object whose `text` and `contentUrl` are both empty answers its
missing-required-field error, whatever the engine, the file system and the
remaining fields are - so neither the parse step nor the execution step of
any engine is ever consulted. -/
theorem c6_missing_both_fields_error :
    (∀ (T : Type) (E : Engine T) (fs : FS) (params : Option PMap),
      handleRender E fs ⟨"", "", params⟩ = .error .missingField ∧
      restErrMsg .missingField = "either template or templateId is required") ∧
    (∀ (T : Type) (E : Engine T) (fs : FS) (typ mtyp efmt : String)
        (props : Option PMap) (tc : Option JValue) (res : Option SemanticMediaObject),
      handleSemanticReplaceA E fs ⟨typ, some ⟨mtyp, "", "", efmt, props⟩, tc, res⟩ =
        .error .textUrlRequired ∧
      semErrMsg .textUrlRequired = "object.text or object.contentUrl is required") :=
  ⟨fun T E fs params => ⟨rfl, rfl⟩,
   fun T E fs typ mtyp efmt props tc res => ⟨rfl, rfl⟩⟩

/-- C10: a `ReplaceAction` that renders successfully but arrived without a
properties map crashes the later revision's handler: the write of the
result, `action.Properties["result"] = ...`, is an assignment into a nil
Go map, which panics. -/
theorem c10_nil_properties_panic :
    handleSemanticReplaceB (goEngine "semantic-template") (fun _ => .error "no file system")
      ⟨some ⟨"Hello", "", ""⟩, none⟩ = .panic "assignment to entry in nil map" := rfl

theorem strContains_middle (a t b : String) : strContains (a ++ t ++ b) t = true := by
  unfold strContains
  apply List.any_eq_true.mpr
  refine ⟨t.data ++ b.data, ?_, ?_⟩
  · apply (List.mem_tails _ _).mpr
    exact ⟨a.data, by simp [String.data_append, List.append_assoc]⟩
  · exact List.isPrefixOf_iff_prefix.mpr (List.prefix_append _ _)

/-- C7 counterexample: an envelope with no type discriminator at all is
answered with `"@type is required"` - a missing-discriminator error, not an
unsupported-action-type error as the claim asserts for the absent case (the
message does not even contain the words "unsupported action type"). -/
theorem c7_claim_counterexample :
    handleSemanticActionA (goEngine "semantic-template") (fun _ => .error "no file system") [] =
      .error SemErr.typeRequired ∧
    semErrMsg SemErr.typeRequired = "@type is required" ∧
    strContains (semErrMsg SemErr.typeRequired) "unsupported action type" = false :=
  ⟨rfl, rfl, rfl⟩

/-- C7 amended: an envelope whose string discriminator is any value other
than `ReplaceAction` fails with the unsupported-action-type error whose
message contains that value exactly; an envelope whose discriminator is
absent (or not a string) fails with the distinct error `"@type is
required"`. -/
theorem c7_amended_dispatch_errors (T : Type) (E : Engine T) (fs : FS) (raw : PMap) :
    (∀ t, lookupKV raw "@type" = some (JValue.str t) → t ≠ "ReplaceAction" →
      handleSemanticActionA E fs raw = .error (.unsupportedType t) ∧
      semErrMsg (SemErr.unsupportedType t) =
        "unsupported action type: " ++ t ++ " (expected ReplaceAction)" ∧
      strContains (semErrMsg (SemErr.unsupportedType t)) t = true) ∧
    ((∀ s, lookupKV raw "@type" ≠ some (JValue.str s)) →
      handleSemanticActionA E fs raw = .error SemErr.typeRequired) := by
  constructor
  · intro t ht hne
    refine ⟨?_, rfl, ?_⟩
    · simp [handleSemanticActionA, ht, hne]
    · exact strContains_middle "unsupported action type: " t " (expected ReplaceAction)"
  · intro h
    rcases hl : lookupKV raw "@type" with _ | v
    · simp [handleSemanticActionA, hl]
    · rcases v with _ | b | n | s | l | o
      · simp [handleSemanticActionA, hl]
      · simp [handleSemanticActionA, hl]
      · simp [handleSemanticActionA, hl]
      · exact absurd hl (h s)
      · simp [handleSemanticActionA, hl]
      · simp [handleSemanticActionA, hl]

/-- Witness for C7 amended: the discriminator `"FooAction"` is rejected
naming it, and an envelope without a discriminator gets the `@type`
error. -/
theorem c7_amended_dispatch_errors_witness :
    handleSemanticActionA (goEngine "semantic-template") (fun _ => .error "e")
        [("@type", JValue.str "FooAction")] = .error (.unsupportedType "FooAction") ∧
    handleSemanticActionA (goEngine "semantic-template") (fun _ => .error "e")
        [("x", JValue.num 1)] = .error SemErr.typeRequired :=
  ⟨((c7_amended_dispatch_errors _ (goEngine "semantic-template") (fun _ => .error "e")
      [("@type", JValue.str "FooAction")]).1 "FooAction" rfl (by decide)).1,
   (c7_amended_dispatch_errors _ (goEngine "semantic-template") (fun _ => .error "e")
      [("x", JValue.num 1)]).2 (fun s => by simp [lookupKV])⟩

theorem parse_exec_msgs_distinct (e e' : String) :
    "failed to parse template: " ++ e ≠ "failed to execute template: " ++ e' := by
  intro h
  have h10 : ("failed to parse template: " ++ e).data[10]? =
      ("failed to execute template: " ++ e').data[10]? := by rw [h]
  rw [String.data_append, String.data_append,
    List.getElem?_append_left (by decide), List.getElem?_append_left (by decide)] at h10
  exact absurd h10 (by decide)

/-- C8: in both handlers the two engine stages are strictly separated.
When the engine's parse step rejects the resolved content, the response is
the parse-failure error carrying the engine's message, and the execution
step is never reached (the result is the same for every execution
function); when parse succeeds and execution fails, the response is the
execution-failure error carrying the engine's message; and no parse-failure
response string ever coincides with an execution-failure response string. -/
theorem c8_parse_exec_stage_separation :
    (∀ (T : Type) (p : String → Except String T)
        (x x' : T → Option PMap → Except String String) (fs : FS)
        (req : TemplateRequest) (content e : String),
      getTemplateContent fs req = .ok content → p content = .error e →
        handleRender ⟨p, x⟩ fs req = .error (.engine (.parseFail e)) ∧
        handleRender ⟨p, x⟩ fs req = handleRender ⟨p, x'⟩ fs req) ∧
    (∀ (T : Type) (E : Engine T) (fs : FS) (req : TemplateRequest)
        (content : String) (t : T) (e : String),
      getTemplateContent fs req = .ok content → E.parse content = .ok t →
      E.exec t req.parameters = .error e →
        handleRender E fs req = .error (.engine (.execFail e))) ∧
    (∀ (T : Type) (p : String → Except String T)
        (x x' : T → Option PMap → Except String String) (fs : FS)
        (a : SemanticTemplateAction) (content e : String),
      semanticContent fs a = .ok content → p content = .error e →
        handleSemanticReplaceA ⟨p, x⟩ fs a = .error (.engine (.parseFail e)) ∧
        handleSemanticReplaceA ⟨p, x⟩ fs a = handleSemanticReplaceA ⟨p, x'⟩ fs a) ∧
    (∀ (T : Type) (E : Engine T) (fs : FS) (a : SemanticTemplateAction)
        (content : String) (t : T) (e : String),
      semanticContent fs a = .ok content → E.parse content = .ok t →
      E.exec t (resolveParams a) = .error e →
        handleSemanticReplaceA E fs a = .error (.engine (.execFail e))) ∧
    (∀ e e' : String,
      restErrMsg (.engine (.parseFail e)) ≠ restErrMsg (.engine (.execFail e')) ∧
      semErrMsg (.engine (.parseFail e)) ≠ semErrMsg (.engine (.execFail e'))) := by
  refine ⟨?_, ?_, ?_, ?_, ?_⟩
  · intro T p x x' fs req content e hc hp
    constructor
    · simp [handleRender, hc, restFinish, renderCore, hp]
    · simp [handleRender, hc, restFinish, renderCore, hp]
  · intro T E fs req content t e hc hp hx
    simp [handleRender, hc, restFinish, renderCore, hp, hx]
  · intro T p x x' fs a content e hc hp
    constructor
    · simp [handleSemanticReplaceA, hc, semanticFinish, renderCore, hp]
    · simp [handleSemanticReplaceA, hc, semanticFinish, renderCore, hp]
  · intro T E fs a content t e hc hp hx
    simp [handleSemanticReplaceA, hc, semanticFinish, renderCore, hp, hx]
  · intro e e'
    exact ⟨parse_exec_msgs_distinct e e', parse_exec_msgs_distinct e e'⟩

/-- Witness for C8: a one-template request against an engine whose parse
step fails with "boom", and against an engine that parses but whose
execution fails with "bam". -/
theorem c8_parse_exec_stage_separation_witness :
    handleRender (⟨fun _ => .error "boom", fun _ _ => .ok ""⟩ : Engine Unit)
        (fun _ => .error "e") ⟨"T", "", none⟩ = .error (.engine (.parseFail "boom")) ∧
    handleRender (⟨fun _ => .ok (), fun _ _ => .error "bam"⟩ : Engine Unit)
        (fun _ => .error "e") ⟨"T", "", none⟩ = .error (.engine (.execFail "bam")) :=
  ⟨(c8_parse_exec_stage_separation.1 Unit (fun _ => .error "boom") (fun _ _ => .ok "")
      (fun _ _ => .ok "") (fun _ => .error "e") ⟨"T", "", none⟩ "T" "boom" rfl rfl).1,
   c8_parse_exec_stage_separation.2.1 Unit ⟨fun _ => .ok (), fun _ _ => .error "bam"⟩
      (fun _ => .error "e") ⟨"T", "", none⟩ "T" () "bam" rfl rfl rfl⟩

/-- C9: in both handlers, when inline template text is supplied it is what
gets rendered and the file system is never consulted (the result is the
same under any file system); and when only a reference to a readable file
is supplied, the render result equals rendering that file's contents with
the request's parameters. -/
theorem c9_inline_preference_and_file_roundtrip :
    (∀ (T : Type) (E : Engine T) (fs fs' : FS) (req : TemplateRequest),
      req.template ≠ "" →
        handleRender E fs req = restFinish E req req.template ∧
        handleRender E fs req = handleRender E fs' req) ∧
    (∀ (T : Type) (E : Engine T) (fs : FS) (req : TemplateRequest) (content : String),
      req.template = "" → req.templateId ≠ "" → fs req.templateId = .ok content →
        handleRender E fs req = restFinish E req content) ∧
    (∀ (T : Type) (E : Engine T) (fs fs' : FS) (a : SemanticTemplateAction)
        (ob : SemanticMediaObject),
      a.object = some ob → ob.text ≠ "" →
        handleSemanticReplaceA E fs a = semanticFinish E a ob.text ∧
        handleSemanticReplaceA E fs a = handleSemanticReplaceA E fs' a) ∧
    (∀ (T : Type) (E : Engine T) (fs : FS) (a : SemanticTemplateAction)
        (ob : SemanticMediaObject) (content : String),
      a.object = some ob → ob.text = "" → ob.contentUrl ≠ "" →
      fs ob.contentUrl = .ok content →
        handleSemanticReplaceA E fs a = semanticFinish E a content) := by
  refine ⟨?_, ?_, ?_, ?_⟩
  · intro T E fs fs' req ht
    constructor
    · simp [handleRender, getTemplateContent, ht]
    · simp [handleRender, getTemplateContent, ht]
  · intro T E fs req content ht hid hfs
    simp [handleRender, getTemplateContent, ht, hid, hfs]
  · intro T E fs fs' a ob hob ht
    constructor
    · simp [handleSemanticReplaceA, semanticContent, hob, ht]
    · simp [handleSemanticReplaceA, semanticContent, hob, ht]
  · intro T E fs a ob content hob ht hcu hfs
    simp [handleSemanticReplaceA, semanticContent, hob, ht, hcu, hfs]

/-- Witness for C9: a request referencing a readable template file renders
that file's contents, and an inline request is served identically under an
unreadable file system. -/
theorem c9_inline_preference_and_file_roundtrip_witness :
    handleRender (goEngine "template")
        (fun path => if path = "/tmp/t.tmpl" then .ok "Hello {{.Name}}!"
                     else .error "open: no such file")
        ⟨"", "/tmp/t.tmpl", some [("Name", JValue.str "World")]⟩ =
      restFinish (goEngine "template")
        ⟨"", "/tmp/t.tmpl", some [("Name", JValue.str "World")]⟩ "Hello {{.Name}}!" ∧
    handleRender (goEngine "template") (fun _ => .error "unreadable")
        ⟨"inline", "/tmp/t.tmpl", none⟩ =
      restFinish (goEngine "template") ⟨"inline", "/tmp/t.tmpl", none⟩ "inline" :=
  ⟨c9_inline_preference_and_file_roundtrip.2.1 _ (goEngine "template")
      (fun path => if path = "/tmp/t.tmpl" then .ok "Hello {{.Name}}!"
                   else .error "open: no such file")
      ⟨"", "/tmp/t.tmpl", some [("Name", JValue.str "World")]⟩ "Hello {{.Name}}!"
      rfl (by decide) rfl,
   (c9_inline_preference_and_file_roundtrip.1 _ (goEngine "template")
      (fun _ => .error "unreadable") (fun _ => .error "unreadable")
      ⟨"inline", "/tmp/t.tmpl", none⟩ (by decide)).1⟩

theorem decodeAction_restToRawAction (t tid : String) (params : Option PMap) :
    decodeAction (restToRawAction ⟨t, tid, params⟩) = .ok (restActionOf t tid params) := by
  by_cases ht : t = "" <;> by_cases hid : tid = "" <;> cases params <;>
    simp [restToRawAction, restActionOf, decodeAction, ht, hid, lookupKV, getStrField,
      getPropsField, decodeObjectField, decodeTargetCollection, Except.bind, bind]

theorem finish_outcome_equiv (T : Type) (E : Engine T) (t tid content : String)
    (params : Option PMap) :
    semOutcome (semanticFinish E (restActionOf t tid params) content) =
      restOutcome (restFinish E ⟨t, tid, params⟩ content) := by
  have hparams : resolveParams (restActionOf t tid params) = params := by
    cases params <;>
      simp [resolveParams, restActionOf, resolveTargetCollection, objPropsOf,
        mergeSecondary, lookupKV]
  simp only [semanticFinish, restFinish, hparams]
  cases hr : renderCore E content params with
  | error e => cases e <;> simp [semOutcome, restOutcome]
  | ok out => simp [semOutcome, restOutcome, semanticEncodingFormat, restActionOf]

/-- C1: the plain REST body shape and the equivalent JSON-LD
`ReplaceAction` envelope produce the same outcome for every engine, file
system and request: the same rendered output and declared format on
success, and a failure of the same stage carrying the same underlying
message on error - the REST endpoint is a faithful adapter onto the
semantic handler. -/
theorem c1_rest_semantic_equivalence (T : Type) (E : Engine T) (fs : FS)
    (req : TemplateRequest) :
    semOutcome (handleSemanticActionA E fs (restToRawAction req)) =
      restOutcome (handleRender E fs req) := by
  obtain ⟨t, tid, params⟩ := req
  have hdisp : handleSemanticActionA E fs (restToRawAction ⟨t, tid, params⟩) =
      handleSemanticReplaceRaw E fs (restToRawAction ⟨t, tid, params⟩) := rfl
  rw [hdisp]
  simp only [handleSemanticReplaceRaw, decodeAction_restToRawAction]
  by_cases ht : t = ""
  · by_cases hid : tid = ""
    · subst ht; subst hid
      cases params <;> rfl
    · subst ht
      cases hf : fs tid with
      | error e =>
        simp [handleSemanticReplaceA, semanticContent, restActionOf, hid, hf,
          handleRender, getTemplateContent, semOutcome, restOutcome]
      | ok content =>
        have h1 : handleSemanticReplaceA E fs (restActionOf "" tid params) =
            semanticFinish E (restActionOf "" tid params) content := by
          simp [handleSemanticReplaceA, semanticContent, restActionOf, hid, hf]
        have h2 : handleRender E fs ⟨"", tid, params⟩ =
            restFinish E ⟨"", tid, params⟩ content := by
          simp [handleRender, getTemplateContent, hid, hf]
        rw [h1, h2, finish_outcome_equiv]
  · have h1 : handleSemanticReplaceA E fs (restActionOf t tid params) =
        semanticFinish E (restActionOf t tid params) t := by
      simp [handleSemanticReplaceA, semanticContent, restActionOf, ht]
    have h2 : handleRender E fs ⟨t, tid, params⟩ = restFinish E ⟨t, tid, params⟩ t := by
      simp [handleRender, getTemplateContent, ht]
    rw [h1, h2, finish_outcome_equiv]
